import Mathlib

/-
Verification of the input-worker prototype: a shallow embedding of
src/prototypes/input-worker/input-buffer.mjs and
src/prototypes/input-worker/adaptive-renderer.mjs.

Modelling conventions:
  - Timestamps and durations are integers (milliseconds); every call the
    source makes to the clock becomes an explicit integer parameter of the
    embedded operation.  Clock reads that happen inside one tight
    JavaScript statement block are modelled as a single instant.
  - JavaScript number arithmetic on these integer-valued quantities is
    modelled exactly over the rationals; the special values produced by
    division by zero (NaN, Infinity) are modelled by the JSVal type, and
    the x || 0 idiom by jsOrZero.
  - setTimeout / clearTimeout are modelled by giving each component an
    explicit list of live timer identifiers (the runtime timer table
    restricted to that kind) together with the stored handle field; firing
    a timer is a step that requires the identifier to be live.
  - A render work item is identified by a natural number; whether a given
    invocation of it raises, and the clock values around the invocation,
    are supplied by an ExecBehavior environment.
  - Fallible control flow (a work item throwing, the try/finally in
    executeRender, the abort of the flush loop) is made explicit in the
    return values: operations return the successor state together with the
    list of executed work-item identifiers and an error flag.
-/

namespace InputWorker

/-- JavaScript number values arising in the metric computations: exact
rationals for finite values, plus the Infinity and NaN produced by
division by zero. -/
inductive JSVal where
  | fin (q : ℚ)
  | inf
  | negInf
  | nan
deriving DecidableEq

/-- JavaScript division restricted to the values that occur here: exact
rational division when the denominator is nonzero, and the IEEE rules
0/0 = NaN, a/0 = plus or minus Infinity for a nonzero. -/
def jsDiv (a b : ℚ) : JSVal :=
  if b = 0 then
    if a = 0 then JSVal.nan
    else if 0 < a then JSVal.inf
    else JSVal.negInf
  else JSVal.fin (a / b)

/-- The JavaScript idiom x || 0: returns 0 when x is falsy (NaN or 0),
otherwise x itself. -/
def jsOrZero : JSVal → JSVal
  | JSVal.fin q => if q = 0 then JSVal.fin 0 else JSVal.fin q
  | JSVal.inf => JSVal.inf
  | JSVal.negInf => JSVal.negInf
  | JSVal.nan => JSVal.fin 0

/-- One buffered input unit: input-buffer.mjs pushes
objects of shape char / receivedAt / queuedAt. -/
structure BufEntry where
  char : Char
  receivedAt : ℤ
  queuedAt : ℤ
deriving DecidableEq

/-- The metrics record of InputBuffer (input-buffer.mjs, constructor). -/
structure BufMetrics where
  totalInputs : ℕ
  delayEvents : ℕ
  maxDelay : ℤ
  avgProcessingTime : JSVal
  totalProcessingTime : ℤ
deriving DecidableEq

/-- Constructor options of InputBuffer; a missing field selects the
source default (delayThresholdMs 50, typingModeDelayMs 100). -/
structure BufOptions where
  delayThresholdMs : Option ℤ := none
  typingModeDelayMs : Option ℤ := none

/-- State of an InputBuffer instance.  pendingTyping is the set of live
typing-mode-off timers belonging to this instance in the runtime timer
table, and nextTimerId is a fresh-identifier source for setTimeout. -/
structure InputBuffer where
  buffer : List BufEntry
  lastProcessTime : ℤ
  delayThresholdMs : ℤ
  metrics : BufMetrics
  typingMode : Bool
  lastInputTime : ℤ
  typingModeTimeout : Option ℕ
  typingModeDelayMs : ℤ
  pendingTyping : List ℕ
  nextTimerId : ℕ

/-- Metrics as initialised in the constructor and in resetMetrics. -/
def initBufMetrics : BufMetrics :=
  { totalInputs := 0, delayEvents := 0, maxDelay := 0,
    avgProcessingTime := JSVal.fin 0, totalProcessingTime := 0 }

/-- The InputBuffer constructor: stores the option values verbatim
(there is no validation anywhere in the constructor, so the embedding is
a total function), captures the construction-time clock in
lastProcessTime, and starts with no pending timer. -/
def InputBuffer.init (opts : BufOptions) (now : ℤ) : InputBuffer :=
  { buffer := []
    lastProcessTime := now
    delayThresholdMs := opts.delayThresholdMs.getD 50
    metrics := initBufMetrics
    typingMode := false
    lastInputTime := 0
    typingModeTimeout := none
    typingModeDelayMs := opts.typingModeDelayMs.getD 100
    pendingTyping := []
    nextTimerId := 0 }

/-- push(data, timestamp): appends one entry per character, stamps
queuedAt with the current clock, counts the inputs, enters typing mode,
and re-arms the typing-mode-off timer after clearing a previously stored
one.  The several Date.now() calls inside the method body are modelled
as the single instant now. -/
def InputBuffer.push (s : InputBuffer) (data : List Char) (timestamp now : ℤ) :
    InputBuffer :=
  let entries := data.map fun c =>
    ({ char := c, receivedAt := timestamp, queuedAt := now } : BufEntry)
  let cleared := match s.typingModeTimeout with
    | some h => s.pendingTyping.erase h
    | none => s.pendingTyping
  { s with
    buffer := s.buffer ++ entries
    lastInputTime := now
    metrics := { s.metrics with totalInputs := s.metrics.totalInputs + data.length }
    typingMode := true
    typingModeTimeout := some s.nextTimerId
    pendingTyping := cleared ++ [s.nextTimerId]
    nextTimerId := s.nextTimerId + 1 }

/-- pushBatch(inputs): pushes each (char, timestamp) item in order. -/
def InputBuffer.pushBatch (s : InputBuffer) (inputs : List (Char × ℤ)) (now : ℤ) :
    InputBuffer :=
  inputs.foldl (fun acc i => acc.push [i.1] i.2 now) s

/-- The typing-mode-off timer fires: typing mode ends and the timer
leaves the runtime table.  The stored handle is not reset by the source
callback, so it stays as a stale identifier. -/
def InputBuffer.fireTypingTimeout (s : InputBuffer) (h : ℕ) : InputBuffer :=
  { s with typingMode := false, pendingTyping := s.pendingTyping.erase h }

/-- isTyping(): reads the typing-mode flag. -/
def InputBuffer.isTyping (s : InputBuffer) : Bool := s.typingMode

/-- size(): number of pending characters. -/
def InputBuffer.size (s : InputBuffer) : ℕ := s.buffer.length

/-- peek(): the queued content; the source method only reads
this.buffer, so it embeds as a pure observer. -/
def InputBuffer.peek (s : InputBuffer) : List Char := s.buffer.map (·.char)

/-- The record returned by flush(). -/
structure FlushResult where
  chars : List Char
  delay : ℤ
  avgQueueTime : ℚ
  count : ℕ
deriving DecidableEq

/-- The payload passed to the onDelayDetected callback.  The callback
itself is external configuration, so flush returns the payload it would
receive (or none when the callback is not invoked). -/
structure DelayNote where
  delay : ℤ
  bufferedChars : ℕ
  timestamp : ℤ
deriving DecidableEq

/-- flush(): now is the Date.now() read at entry, metricsNow the later
Date.now() read when the processing time is measured (line 121 of the
source).  Returns the successor state, the result record, and the
delay-callback payload when the callback fires. -/
def InputBuffer.flush (s : InputBuffer) (now metricsNow : ℤ) :
    InputBuffer × FlushResult × Option DelayNote :=
  let delay := now - s.lastProcessTime
  let m1 :=
    if s.delayThresholdMs < delay ∧ 0 < s.buffer.length then
      { s.metrics with
        delayEvents := s.metrics.delayEvents + 1
        maxDelay := max s.metrics.maxDelay delay }
    else s.metrics
  let note : Option DelayNote :=
    if s.delayThresholdMs < delay ∧ 0 < s.buffer.length then
      some { delay := delay, bufferedChars := s.buffer.length, timestamp := now }
    else none
  let chars := s.buffer.map (·.char)
  let queueTimes := s.buffer.map fun b => b.queuedAt - b.receivedAt
  let avgQueueTime : ℚ :=
    if 0 < queueTimes.length then
      ((queueTimes.sum : ℤ) : ℚ) / (queueTimes.length : ℚ)
    else 0
  let processingTime := metricsNow - now
  let totalPT := m1.totalProcessingTime + processingTime
  let m2 :=
    { m1 with
      totalProcessingTime := totalPT
      avgProcessingTime := jsOrZero (jsDiv ((totalPT : ℤ) : ℚ) ((m1.totalInputs : ℕ) : ℚ)) }
  ({ s with buffer := [], lastProcessTime := now, metrics := m2 },
   { chars := chars, delay := delay, avgQueueTime := avgQueueTime, count := chars.length },
   note)

/-- getMetrics(): snapshot of the metrics record. -/
def InputBuffer.getMetrics (s : InputBuffer) : BufMetrics := s.metrics

/-- resetMetrics(): zeroes the metrics, touching nothing else. -/
def InputBuffer.resetMetrics (s : InputBuffer) : InputBuffer :=
  { s with metrics := initBufMetrics }

/-- Render priorities of adaptive-renderer.mjs. -/
inductive Priority where
  | high
  | normal
  | low
deriving DecidableEq

/-- The priorityOrder table of flushDeferred: high 0, normal 1, low 2. -/
def priorityOrder : Priority → ℕ
  | Priority.high => 0
  | Priority.normal => 1
  | Priority.low => 2

/-- One entry of the deferred render queue; the work item is identified
by a natural number. -/
structure RenderEntry where
  renderFn : ℕ
  priority : Priority
  queuedAt : ℤ
deriving DecidableEq

/-- The metrics record of AdaptiveRenderer. -/
structure RenderMetrics where
  totalRenders : ℕ
  deferredRenders : ℕ
  immediateRenders : ℕ
  avgRenderTime : ℚ
  maxRenderTime : ℤ
deriving DecidableEq

/-- Constructor options of AdaptiveRenderer; a missing field selects the
source default (idleThresholdMs 50, maxDeferMs 200,
minRenderIntervalMs 100). -/
structure RenOptions where
  idleThresholdMs : Option ℤ := none
  maxDeferMs : Option ℤ := none
  minRenderIntervalMs : Option ℤ := none

/-- State of an AdaptiveRenderer instance.  pendingIdle and pendingDefer
are the live idle-transition and max-defer timers of this instance in
the runtime timer table; typingTimeout and deferredRender are the stored
setTimeout handles (typingTimeout is never assigned in the constructor,
which the model renders as none). -/
structure AdaptiveRenderer where
  idleThresholdMs : ℤ
  maxDeferMs : ℤ
  minRenderIntervalMs : ℤ
  lastInputTime : ℤ
  lastRenderTime : ℤ
  deferredRender : Option ℕ
  renderQueue : List RenderEntry
  isTyping : Bool
  typingTimeout : Option ℕ
  metrics : RenderMetrics
  pendingIdle : List ℕ
  pendingDefer : List ℕ
  nextTimerId : ℕ

/-- The AdaptiveRenderer constructor: stores the option values verbatim
(again with no validation, hence a total function). -/
def AdaptiveRenderer.init (opts : RenOptions) : AdaptiveRenderer :=
  { idleThresholdMs := opts.idleThresholdMs.getD 50
    maxDeferMs := opts.maxDeferMs.getD 200
    minRenderIntervalMs := opts.minRenderIntervalMs.getD 100
    lastInputTime := 0
    lastRenderTime := 0
    deferredRender := none
    renderQueue := []
    isTyping := false
    typingTimeout := none
    metrics := { totalRenders := 0, deferredRenders := 0, immediateRenders := 0,
                 avgRenderTime := 0, maxRenderTime := 0 }
    pendingIdle := []
    pendingDefer := []
    nextTimerId := 0 }

/-- The environment of one work-item invocation: whether it raises, the
clock at entry (tStart), the clock when the duration is measured (tEnd),
and the clock stored into lastRenderTime (tAfter); the source reads the
clock three times in executeRender. -/
structure ExecBehavior where
  raises : Bool
  tStart : ℤ
  tEnd : ℤ
  tAfter : ℤ
deriving DecidableEq

/-- executeRender(renderFn): invokes the work item inside try/finally;
the finally block updates every metric and lastRenderTime whether or not
the invocation raised, and an exception then propagates to the caller,
which the model renders as the returned Boolean. -/
def AdaptiveRenderer.executeRender (s : AdaptiveRenderer) (b : ExecBehavior) :
    AdaptiveRenderer × Bool :=
  let duration := b.tEnd - b.tStart
  let total := s.metrics.totalRenders + 1
  let m :=
    { s.metrics with
      totalRenders := total
      immediateRenders := s.metrics.immediateRenders + 1
      maxRenderTime := max s.metrics.maxRenderTime duration
      avgRenderTime :=
        (s.metrics.avgRenderTime * ((total : ℚ) - 1) + ((duration : ℤ) : ℚ)) / (total : ℚ) }
  ({ s with lastRenderTime := b.tAfter, metrics := m }, b.raises)

/-- onInput(): records the input time, enters typing mode, and re-arms
the idle timer after clearing a previously stored one. -/
def AdaptiveRenderer.onInput (s : AdaptiveRenderer) (now : ℤ) : AdaptiveRenderer :=
  let cleared := match s.typingTimeout with
    | some h => s.pendingIdle.erase h
    | none => s.pendingIdle
  { s with
    lastInputTime := now
    isTyping := true
    typingTimeout := some s.nextTimerId
    pendingIdle := cleared ++ [s.nextTimerId]
    nextTimerId := s.nextTimerId + 1 }

/-- deferRender(renderFn, priority): enqueues the entry, counts it, and
arms the max-defer timer only when this.deferredRender is not already
set. -/
def AdaptiveRenderer.deferRender (s : AdaptiveRenderer) (fn : ℕ) (priority : Priority)
    (now : ℤ) : AdaptiveRenderer :=
  let s1 :=
    { s with
      renderQueue :=
        s.renderQueue ++ [({ renderFn := fn, priority := priority, queuedAt := now } : RenderEntry)]
      metrics := { s.metrics with deferredRenders := s.metrics.deferredRenders + 1 } }
  match s1.deferredRender with
  | none =>
      { s1 with
        deferredRender := some s1.nextTimerId
        pendingDefer := s1.pendingDefer ++ [s1.nextTimerId]
        nextTimerId := s1.nextTimerId + 1 }
  | some _ => s1

/-- What requestRender did with the work item. -/
inductive RenderOutcome where
  | executed (raised : Bool)
  | deferredQ
deriving DecidableEq

/-- requestRender(renderFn, priority): high priority executes
immediately; otherwise the item is deferred exactly when isTyping holds
and the time since the last input is below idleThresholdMs, and executed
immediately in every other case. -/
def AdaptiveRenderer.requestRender (s : AdaptiveRenderer) (fn : ℕ) (priority : Priority)
    (now : ℤ) (b : ExecBehavior) : AdaptiveRenderer × RenderOutcome :=
  if priority = Priority.high then
    let r := s.executeRender b
    (r.1, RenderOutcome.executed r.2)
  else
    let timeSinceInput := now - s.lastInputTime
    if s.isTyping = true ∧ timeSinceInput < s.idleThresholdMs then
      (s.deferRender fn priority now, RenderOutcome.deferredQ)
    else
      let r := s.executeRender b
      (r.1, RenderOutcome.executed r.2)

/-- The comparator of flushDeferred as a Prop relation: an entry sorts
no later than another when its priority rank is strictly smaller, or the
ranks tie and its queuedAt is no larger.  This is comparator(a,b) <= 0
for the source comparator, which returns the rank difference when
nonzero and the queuedAt difference otherwise. -/
def entryLE (a b : RenderEntry) : Prop :=
  priorityOrder a.priority < priorityOrder b.priority ∨
    (priorityOrder a.priority = priorityOrder b.priority ∧ a.queuedAt ≤ b.queuedAt)

instance : DecidableRel entryLE := fun a b => by
  unfold entryLE; infer_instance

instance : IsTotal RenderEntry entryLE :=
  ⟨fun a b => by unfold entryLE; omega⟩

instance : IsTrans RenderEntry entryLE :=
  ⟨fun a b c hab hbc => by unfold entryLE at *; omega⟩

/-- The in-place Array.prototype.sort of flushDeferred.  ECMAScript
guarantees a stable sort, and the comparator above is consistent, so the
result is the unique stable sort with respect to entryLE; insertion sort
inserting each element before the first strictly later one computes
exactly that list. -/
def sortQueue (q : List RenderEntry) : List RenderEntry :=
  q.insertionSort entryLE

/-- The execution loop of flushDeferred over the sorted queue: executes
entries in order, consuming one ExecBehavior per invocation (an
exhausted environment means non-raising invocations), and stops at the
first invocation that raises, as the uncaught exception aborts the loop.
Returns the state, the executed work-item identifiers in order, and the
error flag. -/
def runQueue (s : AdaptiveRenderer) :
    List RenderEntry → List ExecBehavior → AdaptiveRenderer × List ℕ × Bool
  | [], _ => (s, [], false)
  | e :: rest, env =>
      let b := env.headD ({ raises := false, tStart := 0, tEnd := 0, tAfter := 0 } : ExecBehavior)
      let r := s.executeRender b
      if r.2 then (r.1, [e.renderFn], true)
      else
        let k := runQueue r.1 rest env.tail
        (k.1, e.renderFn :: k.2.1, k.2.2)

/-- The opening lines of flushDeferred: when this.deferredRender holds a
handle, clearTimeout it (remove it from the live table if still there)
and null the field. -/
def AdaptiveRenderer.cancelDeferTimer (s : AdaptiveRenderer) : AdaptiveRenderer :=
  match s.deferredRender with
  | some h => { s with pendingDefer := s.pendingDefer.erase h, deferredRender := none }
  | none => s

/-- The remainder of flushDeferred after the timer cancellation:
returns at once on an empty queue, otherwise sorts the queue in place
and executes every entry in sorted order; this.renderQueue is reset to
empty only when the loop completes, so an uncaught error leaves the
(sorted) queue in place. -/
def AdaptiveRenderer.flushQueueNow (s0 : AdaptiveRenderer) (env : List ExecBehavior) :
    AdaptiveRenderer × List ℕ × Bool :=
  if s0.renderQueue = [] then (s0, [], false)
  else
    let sorted := sortQueue s0.renderQueue
    let s1 := { s0 with renderQueue := sorted }
    let r := runQueue s1 sorted env
    if r.2.2 then r
    else ({ r.1 with renderQueue := [] }, r.2.1, false)

/-- flushDeferred(): clears the armed max-defer timer, then flushes the
queue as above. -/
def AdaptiveRenderer.flushDeferred (s : AdaptiveRenderer) (env : List ExecBehavior) :
    AdaptiveRenderer × List ℕ × Bool :=
  s.cancelDeferTimer.flushQueueNow env

/-- The idle-transition timer fires: the timer leaves the runtime table,
typing mode ends, and the callback flushes the deferred queue.  The
stored handle is not reset by the source callback. -/
def AdaptiveRenderer.fireIdleTimeout (s : AdaptiveRenderer) (h : ℕ)
    (env : List ExecBehavior) : AdaptiveRenderer × List ℕ × Bool :=
  AdaptiveRenderer.flushDeferred
    { s with pendingIdle := s.pendingIdle.erase h, isTyping := false } env

/-- The max-defer timer fires: the timer leaves the runtime table and
the callback flushes the deferred queue (which then clears the now stale
deferredRender handle). -/
def AdaptiveRenderer.fireDeferTimeout (s : AdaptiveRenderer) (h : ℕ)
    (env : List ExecBehavior) : AdaptiveRenderer × List ℕ × Bool :=
  AdaptiveRenderer.flushDeferred { s with pendingDefer := s.pendingDefer.erase h } env

/-- isDeferred(): typing mode and a non-empty deferred queue. -/
def AdaptiveRenderer.isDeferred (s : AdaptiveRenderer) : Bool :=
  s.isTyping && !s.renderQueue.isEmpty

/-- One consumer operation between construction and flush, for stating
ordering over operation sequences.  peek has no state effect because the
source method only reads this.buffer. -/
inductive BufOp where
  | push (data : List Char) (timestamp now : ℤ)
  | peek

/-- Runs a sequence of consumer operations on an InputBuffer. -/
def applyOps : InputBuffer → List BufOp → InputBuffer
  | s, [] => s
  | s, BufOp.push d ts now :: rest => applyOps (s.push d ts now) rest
  | s, BufOp.peek :: rest => applyOps s rest

/-- The concatenation, in order, of all data pushed by a sequence of
operations. -/
def pushedChars : List BufOp → List Char
  | [] => []
  | BufOp.push d _ _ :: rest => d ++ pushedChars rest
  | BufOp.peek :: rest => pushedChars rest

lemma applyOps_buffer_map (s : InputBuffer) (ops : List BufOp) :
    ((applyOps s ops).buffer.map (·.char)) = s.buffer.map (·.char) ++ pushedChars ops := by
  induction ops generalizing s with
  | nil => simp [applyOps, pushedChars]
  | cons op rest ih =>
    cases op with
    | push d ts now =>
      simp only [applyOps, pushedChars, ih, InputBuffer.push, List.map_append,
        List.map_map, List.append_assoc, List.append_cancel_left_eq,
        List.append_left_inj]
      exact List.map_id d
    | peek => simp [applyOps, pushedChars, ih]

lemma flush_chars (s : InputBuffer) (now metricsNow : ℤ) :
    (s.flush now metricsNow).2.1.chars = s.buffer.map (·.char) := rfl

lemma flush_count (s : InputBuffer) (now metricsNow : ℤ) :
    (s.flush now metricsNow).2.1.count = (s.buffer.map (·.char)).length := rfl

end InputWorker

namespace InputWorker

/-- C1: for every sequence of pushes, with any number of interleaved
peeks, flush returns the pushed content concatenated in push order with
no unit duplicated or omitted, with the matching count; peek reports the
same content without consuming it. -/
theorem C1_flush_returns_pushes_in_order (opts : BufOptions) (t0 : ℤ) (ops : List BufOp)
    (now metricsNow : ℤ) :
    (applyOps (InputBuffer.init opts t0) ops).peek = pushedChars ops ∧
    ((applyOps (InputBuffer.init opts t0) ops).flush now metricsNow).2.1.chars =
      pushedChars ops ∧
    ((applyOps (InputBuffer.init opts t0) ops).flush now metricsNow).2.1.count =
      (pushedChars ops).length := by
  have h0 : (InputBuffer.init opts t0).buffer = [] := rfl
  have h := applyOps_buffer_map (InputBuffer.init opts t0) ops
  rw [h0] at h
  simp only [List.map_nil, List.nil_append] at h
  exact ⟨h, by rw [flush_chars, h], by rw [flush_count, h]⟩

/-- C2, failing input: with two normal-priority entries deferred while
typing, where the first work item raises during the first flushDeferred,
the source skips the queue reset, so a second flushDeferred executes the
first work item a second time. -/
theorem C2_entry_reexecuted_after_error :
    (let s2 := ((((AdaptiveRenderer.init {}).onInput 0).requestRender 1 Priority.normal 0
        ⟨false, 0, 0, 0⟩).1.requestRender 2 Priority.normal 1 ⟨false, 0, 0, 0⟩).1
     let r1 := s2.flushDeferred [⟨true, 0, 0, 0⟩]
     let r2 := r1.1.flushDeferred []
     r1.2.1 = [1] ∧ r1.2.2 = true ∧ r2.2.1 = [1, 2] ∧ (r1.2.1 ++ r2.2.1).count 1 = 2) := by
  decide

/-- C4: flush raises a delay event exactly when the queue is non-empty
and the elapsed delay exceeds the threshold: then delayEvents grows by
one, maxDelay becomes the maximum of itself and the delay, and the
callback receives the delay, the buffered count and the timestamp; in
every other case (in particular on an empty queue) the metrics are
untouched and no callback fires, while the returned delay is reported
regardless. -/
theorem C4_delay_event_accounting (s : InputBuffer) (now metricsNow : ℤ) :
    ((s.flush now metricsNow).1.metrics.delayEvents =
      s.metrics.delayEvents +
        if s.delayThresholdMs < now - s.lastProcessTime ∧ 0 < s.buffer.length then 1
        else 0) ∧
    ((s.flush now metricsNow).1.metrics.maxDelay =
      if s.delayThresholdMs < now - s.lastProcessTime ∧ 0 < s.buffer.length then
        max s.metrics.maxDelay (now - s.lastProcessTime)
      else s.metrics.maxDelay) ∧
    ((s.flush now metricsNow).2.2 =
      if s.delayThresholdMs < now - s.lastProcessTime ∧ 0 < s.buffer.length then
        some { delay := now - s.lastProcessTime, bufferedChars := s.buffer.length,
               timestamp := now }
      else none) ∧
    ((s.flush now metricsNow).2.1.delay = now - s.lastProcessTime) := by
  refine ⟨?_, ?_, ?_, rfl⟩ <;>
    simp only [InputBuffer.flush] <;> split <;> simp

/-- C5: the constructors perform no validation: constructing with
negative thresholds returns normally (the embedded constructors are
total functions, mirroring the absence of any throw in the source) and
stores the invalid values verbatim instead of failing fast. -/
theorem C5_constructors_store_invalid_config :
    (InputBuffer.init
      { delayThresholdMs := some (-5), typingModeDelayMs := some (-7) } 0).delayThresholdMs =
        -5 ∧
    (InputBuffer.init
      { delayThresholdMs := some (-5), typingModeDelayMs := some (-7) } 0).typingModeDelayMs =
        -7 ∧
    (AdaptiveRenderer.init
      { idleThresholdMs := some (-1), maxDeferMs := some (-2),
        minRenderIntervalMs := some (-3) }).idleThresholdMs = -1 ∧
    (AdaptiveRenderer.init
      { idleThresholdMs := some (-1), maxDeferMs := some (-2),
        minRenderIntervalMs := some (-3) }).maxDeferMs = -2 ∧
    (AdaptiveRenderer.init
      { idleThresholdMs := some (-1), maxDeferMs := some (-2),
        minRenderIntervalMs := some (-3) }).minRenderIntervalMs = -3 :=
  ⟨rfl, rfl, rfl, rfl, rfl⟩

/-- C6: executeRender updates every render metric (count, immediate
count, max and running-average duration) on both exit paths - the
update is part of the returned state whether or not the work item
raised - and the error indicator returned to the caller is exactly
whether the work item raised, never swallowed. -/
theorem C6_executeRender_metrics_on_every_exit (s : AdaptiveRenderer) (b : ExecBehavior) :
    ((s.executeRender b).1.metrics.totalRenders = s.metrics.totalRenders + 1) ∧
    ((s.executeRender b).1.metrics.immediateRenders = s.metrics.immediateRenders + 1) ∧
    ((s.executeRender b).1.metrics.maxRenderTime =
      max s.metrics.maxRenderTime (b.tEnd - b.tStart)) ∧
    ((s.executeRender b).1.metrics.avgRenderTime =
      (s.metrics.avgRenderTime * (((s.metrics.totalRenders + 1 : ℕ) : ℚ) - 1) +
          ((b.tEnd - b.tStart : ℤ) : ℚ)) / ((s.metrics.totalRenders + 1 : ℕ) : ℚ)) ∧
    ((s.executeRender b).2 = b.raises) :=
  ⟨rfl, rfl, rfl, rfl, rfl⟩

lemma jsOrZero_ne_nan (v : JSVal) : jsOrZero v ≠ JSVal.nan := by
  cases v with
  | fin q => by_cases hq : q = 0 <;> simp [jsOrZero, hq]
  | inf => simp [jsOrZero]
  | negInf => simp [jsOrZero]
  | nan => simp [jsOrZero]

lemma jsOrZero_jsDiv_zero_den (x : ℤ) :
    jsOrZero (jsDiv ((x : ℤ) : ℚ) ((0 : ℕ) : ℚ)) =
      if x = 0 then JSVal.fin 0 else if 0 < x then JSVal.inf else JSVal.negInf := by
  by_cases hx : x = 0
  · simp [jsDiv, hx, jsOrZero]
  · by_cases hp : 0 < x
    · have h1 : (0 : ℚ) < (x : ℚ) := by exact_mod_cast hp
      simp [jsDiv, hx, hp, jsOrZero, h1, ne_of_gt h1]
    · have h1 : ¬ (0 : ℚ) < (x : ℚ) := by exact_mod_cast hp
      have h2 : ((x : ℤ) : ℚ) ≠ 0 := by exact_mod_cast hx
      simp [jsDiv, hx, hp, jsOrZero, h1, h2]

/-- C7, counterexample to the claim as stated: a flush on an empty queue
with totalInputs still 0 that takes one millisecond (the two clock reads
inside flush differ by 1) leaves avgProcessingTime = Infinity, not 0:
the || 0 guard only converts the NaN of 0/0, and 1/0 is Infinity. -/
theorem C7_avgProcessingTime_counterexample :
    ((InputBuffer.init {} 0).flush 100 101).1.metrics.totalInputs = 0 ∧
    ((InputBuffer.init {} 0).flush 100 101).1.metrics.avgProcessingTime = JSVal.inf ∧
    JSVal.inf ≠ JSVal.fin 0 := by
  refine ⟨rfl, ?_, by decide⟩
  simp [InputBuffer.flush, InputBuffer.init, initBufMetrics, jsDiv, jsOrZero]

/-- C7 as amended: the average computations never produce NaN and never
raise; flush on an empty queue returns avgQueueTime 0; and when
totalInputs is 0, avgProcessingTime is 0 when the accumulated
processing time is 0 (NaN converted by the || 0 guard) but Infinity
when it is positive. -/
theorem C7_averages_total_amended (s : InputBuffer) (now metricsNow : ℤ) :
    (s.buffer = [] → (s.flush now metricsNow).2.1.avgQueueTime = 0) ∧
    (s.flush now metricsNow).1.metrics.avgProcessingTime ≠ JSVal.nan ∧
    (s.metrics.totalInputs = 0 →
      (s.flush now metricsNow).1.metrics.avgProcessingTime =
        if s.metrics.totalProcessingTime + (metricsNow - now) = 0 then JSVal.fin 0
        else if 0 < s.metrics.totalProcessingTime + (metricsNow - now) then JSVal.inf
        else JSVal.negInf) := by
  refine ⟨?_, ?_, ?_⟩
  · intro hb
    simp [InputBuffer.flush, hb]
  · simp only [InputBuffer.flush]
    split <;> exact jsOrZero_ne_nan _
  · intro h0
    simp only [InputBuffer.flush]
    split <;> simp only [h0] <;> exact jsOrZero_jsDiv_zero_den _

/-- Closed witness for C7_averages_total_amended at a concrete input. -/
theorem C7_averages_total_amended_witness :
    ((InputBuffer.init {} 0).flush 0 0).2.1.avgQueueTime = 0 ∧
    ((InputBuffer.init {} 0).flush 0 0).1.metrics.avgProcessingTime ≠ JSVal.nan ∧
    ((InputBuffer.init {} 0).flush 0 0).1.metrics.avgProcessingTime = JSVal.fin 0 := by
  have h := C7_averages_total_amended (InputBuffer.init {} 0) 0 0
  refine ⟨h.1 rfl, h.2.1, ?_⟩
  have h3 := h.2.2 rfl
  simpa using h3

/-- C9, counterexample to the claim as stated: pushing abc with the
default arrival timestamp and flushing 50ms later yields
avgQueueTime 0, not approximately 50 - queuedAt equals receivedAt when
the arrival timestamp defaults to the push-time clock, and waiting
between push and flush does not change either stamp. -/
theorem C9_scenario_counterexample :
    (((InputBuffer.init {} 0).push "abc".toList 0 0).flush 50 50).2.1.avgQueueTime = 0 ∧
    ¬ |(((InputBuffer.init {} 0).push "abc".toList 0 0).flush 50 50).2.1.avgQueueTime - 50| ≤
        10 := by
  have h : (((InputBuffer.init {} 0).push "abc".toList 0 0).flush 50 50).2.1.avgQueueTime =
      0 := by
    simp [InputBuffer.flush, InputBuffer.push, InputBuffer.init]
  refine ⟨h, ?_⟩
  rw [h]
  norm_num

lemma runQueue_noRaise (es : List RenderEntry) :
    ∀ (env : List ExecBehavior) (s : AdaptiveRenderer), (∀ b ∈ env, b.raises = false) →
      (runQueue s es env).2.1 = es.map (·.renderFn) ∧ (runQueue s es env).2.2 = false := by
  induction es with
  | nil => intro env s _; simp [runQueue]
  | cons e rest ih =>
    intro env s henv
    have hb : (env.headD ({ raises := false, tStart := 0, tEnd := 0, tAfter := 0 } :
        ExecBehavior)).raises = false := by
      cases env with
      | nil => rfl
      | cons b bs => exact henv b (List.mem_cons_self b bs)
    have htail : ∀ b ∈ env.tail, b.raises = false := fun b hmem =>
      henv b (List.mem_of_mem_tail hmem)
    have hex : (s.executeRender (env.headD
        ({ raises := false, tStart := 0, tEnd := 0, tAfter := 0 } : ExecBehavior))).2 =
        false := hb
    simp only [runQueue, hex, Bool.false_eq_true, if_false, List.map_cons]
    have hrec := ih env.tail
      ((s.executeRender (env.headD
        ({ raises := false, tStart := 0, tEnd := 0, tAfter := 0 } : ExecBehavior))).1) htail
    exact ⟨by rw [hrec.1], hrec.2⟩

lemma sortQueue_sorted (q : List RenderEntry) : List.Sorted entryLE (sortQueue q) :=
  List.sorted_insertionSort entryLE q

lemma sortQueue_perm (q : List RenderEntry) : (sortQueue q).Perm q :=
  List.perm_insertionSort entryLE q

lemma cancelDeferTimer_renderQueue (s : AdaptiveRenderer) :
    s.cancelDeferTimer.renderQueue = s.renderQueue := by
  unfold AdaptiveRenderer.cancelDeferTimer
  cases s.deferredRender <;> rfl

lemma flushQueueNow_noRaise (s0 : AdaptiveRenderer) (env : List ExecBehavior)
    (henv : ∀ b ∈ env, b.raises = false) :
    (s0.flushQueueNow env).2.1 = (sortQueue s0.renderQueue).map (·.renderFn) ∧
    (s0.flushQueueNow env).1.renderQueue = [] ∧
    (s0.flushQueueNow env).2.2 = false := by
  unfold AdaptiveRenderer.flushQueueNow
  by_cases hq : s0.renderQueue = []
  · simp [hq, sortQueue, List.insertionSort]
  · obtain ⟨h1, h2⟩ :=
      runQueue_noRaise (sortQueue s0.renderQueue) env
        { s0 with renderQueue := sortQueue s0.renderQueue } henv
    simp [hq, h1, h2]

lemma flushDeferred_noRaise (s : AdaptiveRenderer) (env : List ExecBehavior)
    (henv : ∀ b ∈ env, b.raises = false) :
    (s.flushDeferred env).2.1 = (sortQueue s.renderQueue).map (·.renderFn) ∧
    (s.flushDeferred env).1.renderQueue = [] ∧
    (s.flushDeferred env).2.2 = false := by
  have h := flushQueueNow_noRaise s.cancelDeferTimer env henv
  rw [cancelDeferTimer_renderQueue] at h
  exact h

/-- C3: flushDeferred executes the queued work items in the stable
order given by priority ascending (high before normal before low) with
FIFO ties broken by queuedAt, and clears the queue (stated here for
executions in which no work item raises; the error path is the subject
of C2); requestRender with a non-high priority while typing - the
isTyping flag set and the elapsed time since the last input below
idleThresholdMs - enqueues instead of executing; and the example queue
[low at 0, high at 1, normal at 2] flushes as [high, normal, low]. -/
theorem C3_flush_in_priority_order :
    (∀ (s : AdaptiveRenderer) (env : List ExecBehavior), (∀ b ∈ env, b.raises = false) →
      (s.flushDeferred env).2.1 = (sortQueue s.renderQueue).map (·.renderFn) ∧
      (s.flushDeferred env).1.renderQueue = [] ∧
      (s.flushDeferred env).2.2 = false) ∧
    (∀ q : List RenderEntry, List.Sorted entryLE (sortQueue q) ∧ (sortQueue q).Perm q) ∧
    (∀ (s : AdaptiveRenderer) (fn : ℕ) (p : Priority) (now : ℤ) (b : ExecBehavior),
      p ≠ Priority.high → s.isTyping = true → now - s.lastInputTime < s.idleThresholdMs →
        (s.requestRender fn p now b).2 = RenderOutcome.deferredQ ∧
        (s.requestRender fn p now b).1.renderQueue =
          s.renderQueue ++ [{ renderFn := fn, priority := p, queuedAt := now }] ∧
        (s.requestRender fn p now b).1.metrics.totalRenders = s.metrics.totalRenders) ∧
    ((AdaptiveRenderer.flushDeferred
      { AdaptiveRenderer.init {} with
        renderQueue := [⟨10, Priority.low, 0⟩, ⟨11, Priority.high, 1⟩,
          ⟨12, Priority.normal, 2⟩] } []).2.1 = [11, 12, 10]) := by
  refine ⟨flushDeferred_noRaise, fun q => ⟨sortQueue_sorted q, sortQueue_perm q⟩, ?_, ?_⟩
  · intro s fn p now b hp hty hlt
    have hcond : (s.isTyping = true ∧ now - s.lastInputTime < s.idleThresholdMs) := ⟨hty, hlt⟩
    unfold AdaptiveRenderer.requestRender
    rw [if_neg hp, if_pos hcond]
    unfold AdaptiveRenderer.deferRender
    cases hdr : s.deferredRender <;> simp [hdr]
  · decide

/-- Closed witness for C3_flush_in_priority_order: a non-raising flush
of the fresh scheduler is a no-op with no executions, and a
normal-priority request right after an input defers. -/
theorem C3_flush_in_priority_order_witness :
    ((AdaptiveRenderer.init {}).flushDeferred []).2.2 = false ∧
    (((AdaptiveRenderer.init {}).onInput 0).requestRender 5 Priority.normal 0
        ⟨false, 0, 0, 0⟩).2 = RenderOutcome.deferredQ := by
  constructor
  · exact (C3_flush_in_priority_order.1 (AdaptiveRenderer.init {}) []
      (by intro b hb; cases hb)).2.2
  · exact (C3_flush_in_priority_order.2.2.1 ((AdaptiveRenderer.init {}).onInput 0) 5
      Priority.normal 0 ⟨false, 0, 0, 0⟩ (by decide) rfl (by decide)).1

/-- One observable step of an InputBuffer instance: a consumer call, or
the typing-mode-off timer firing (which requires the timer to be live in
the runtime table). -/
inductive BufStep : InputBuffer → InputBuffer → Prop where
  | push : ∀ (s : InputBuffer) (data : List Char) (ts now : ℤ),
      BufStep s (s.push data ts now)
  | pushBatch : ∀ (s : InputBuffer) (inputs : List (Char × ℤ)) (now : ℤ),
      BufStep s (s.pushBatch inputs now)
  | flush : ∀ (s : InputBuffer) (now metricsNow : ℤ), BufStep s (s.flush now metricsNow).1
  | fireTyping : ∀ (s : InputBuffer) (h : ℕ), h ∈ s.pendingTyping →
      BufStep s (s.fireTypingTimeout h)
  | resetMetrics : ∀ (s : InputBuffer), BufStep s s.resetMetrics

/-- States an InputBuffer can reach from construction. -/
def ReachableBuf (opts : BufOptions) (t0 : ℤ) (s : InputBuffer) : Prop :=
  Relation.ReflTransGen BufStep (InputBuffer.init opts t0) s

/-- The typing-mode timer invariant: no live timer, or exactly one whose
identifier is the stored handle. -/
def BufTimerInv (s : InputBuffer) : Prop :=
  s.pendingTyping = [] ∨ ∃ h, s.pendingTyping = [h] ∧ s.typingModeTimeout = some h

lemma push_pendingTyping_of_inv {s : InputBuffer} (inv : BufTimerInv s)
    (d : List Char) (ts now : ℤ) :
    (s.push d ts now).pendingTyping = [s.nextTimerId] := by
  rcases inv with h1 | ⟨h, hp, ht⟩
  · unfold InputBuffer.push
    cases hto : s.typingModeTimeout <;> simp [hto, h1]
  · unfold InputBuffer.push
    simp [ht, hp]

lemma push_inv {s : InputBuffer} (inv : BufTimerInv s) (d : List Char) (ts now : ℤ) :
    BufTimerInv (s.push d ts now) :=
  Or.inr ⟨s.nextTimerId, push_pendingTyping_of_inv inv d ts now, rfl⟩

lemma pushBatch_inv {s : InputBuffer} (inv : BufTimerInv s)
    (inputs : List (Char × ℤ)) (now : ℤ) : BufTimerInv (s.pushBatch inputs now) := by
  induction inputs generalizing s with
  | nil => exact inv
  | cons i rest ih =>
      have h1 : s.pushBatch (i :: rest) now = (s.push [i.1] i.2 now).pushBatch rest now := rfl
      rw [h1]
      exact ih (push_inv inv [i.1] i.2 now)

lemma fireTyping_inv {s : InputBuffer} (inv : BufTimerInv s) (h : ℕ)
    (hmem : h ∈ s.pendingTyping) : BufTimerInv (s.fireTypingTimeout h) := by
  rcases inv with h1 | ⟨h0, hp, _⟩
  · rw [h1] at hmem
    cases hmem
  · rw [hp] at hmem
    have hh : h = h0 := by
      cases hmem with
      | head => rfl
      | tail _ hm => cases hm
    left
    unfold InputBuffer.fireTypingTimeout
    simp [hp, hh]

lemma bufStep_inv {s s2 : InputBuffer} (inv : BufTimerInv s) (st : BufStep s s2) :
    BufTimerInv s2 := by
  cases st with
  | push d ts now => exact push_inv inv d ts now
  | pushBatch inputs now => exact pushBatch_inv inv inputs now
  | flush now metricsNow => exact inv
  | fireTyping h hmem => exact fireTyping_inv inv h hmem
  | resetMetrics => exact inv

lemma bufInv_of_reachable {opts : BufOptions} {t0 : ℤ} {s : InputBuffer}
    (h : ReachableBuf opts t0 s) : BufTimerInv s := by
  induction h with
  | refl => exact Or.inl rfl
  | tail _ st ih => exact bufStep_inv ih st

/-- The idle-timer invariant of the renderer: no live idle timer, or
exactly one whose identifier is the stored handle. -/
def RenIdleInv (s : AdaptiveRenderer) : Prop :=
  s.pendingIdle = [] ∨ ∃ h, s.pendingIdle = [h] ∧ s.typingTimeout = some h

/-- The max-defer-timer invariant of the renderer: handle and live timer
are both absent or both present and matching. -/
def RenDeferInv (s : AdaptiveRenderer) : Prop :=
  (s.pendingDefer = [] ∧ s.deferredRender = none) ∨
    ∃ h, s.pendingDefer = [h] ∧ s.deferredRender = some h

/-- Both renderer timer invariants. -/
def RenTimerInv (s : AdaptiveRenderer) : Prop := RenIdleInv s ∧ RenDeferInv s

lemma runQueue_pendingIdle (es : List RenderEntry) :
    ∀ (env : List ExecBehavior) (s : AdaptiveRenderer),
      ((runQueue s es env).1).pendingIdle = s.pendingIdle := by
  induction es with
  | nil => intro env s; rfl
  | cons e rest ih =>
      intro env s
      simp only [runQueue]
      split
      · rfl
      · exact ih env.tail _

lemma runQueue_pendingDefer (es : List RenderEntry) :
    ∀ (env : List ExecBehavior) (s : AdaptiveRenderer),
      ((runQueue s es env).1).pendingDefer = s.pendingDefer := by
  induction es with
  | nil => intro env s; rfl
  | cons e rest ih =>
      intro env s
      simp only [runQueue]
      split
      · rfl
      · exact ih env.tail _

lemma runQueue_typingTimeout (es : List RenderEntry) :
    ∀ (env : List ExecBehavior) (s : AdaptiveRenderer),
      ((runQueue s es env).1).typingTimeout = s.typingTimeout := by
  induction es with
  | nil => intro env s; rfl
  | cons e rest ih =>
      intro env s
      simp only [runQueue]
      split
      · rfl
      · exact ih env.tail _

lemma runQueue_deferredRender (es : List RenderEntry) :
    ∀ (env : List ExecBehavior) (s : AdaptiveRenderer),
      ((runQueue s es env).1).deferredRender = s.deferredRender := by
  induction es with
  | nil => intro env s; rfl
  | cons e rest ih =>
      intro env s
      simp only [runQueue]
      split
      · rfl
      · exact ih env.tail _

lemma runQueue_imm_total (es : List RenderEntry) :
    ∀ (env : List ExecBehavior) (s : AdaptiveRenderer),
      s.metrics.immediateRenders = s.metrics.totalRenders →
      ((runQueue s es env).1).metrics.immediateRenders =
        ((runQueue s es env).1).metrics.totalRenders := by
  induction es with
  | nil => intro env s hs; exact hs
  | cons e rest ih =>
      intro env s hs
      have hstep : ∀ b : ExecBehavior,
          (s.executeRender b).1.metrics.immediateRenders =
            (s.executeRender b).1.metrics.totalRenders := by
        intro b
        show s.metrics.immediateRenders + 1 = s.metrics.totalRenders + 1
        omega
      simp only [runQueue]
      split
      · exact hstep _
      · exact ih env.tail _ (hstep _)

lemma cancelDeferTimer_pendingIdle (s : AdaptiveRenderer) :
    s.cancelDeferTimer.pendingIdle = s.pendingIdle := by
  unfold AdaptiveRenderer.cancelDeferTimer
  cases s.deferredRender <;> rfl

lemma cancelDeferTimer_typingTimeout (s : AdaptiveRenderer) :
    s.cancelDeferTimer.typingTimeout = s.typingTimeout := by
  unfold AdaptiveRenderer.cancelDeferTimer
  cases s.deferredRender <;> rfl

lemma cancelDeferTimer_metrics (s : AdaptiveRenderer) :
    s.cancelDeferTimer.metrics = s.metrics := by
  unfold AdaptiveRenderer.cancelDeferTimer
  cases s.deferredRender <;> rfl

lemma cancelDeferTimer_clears (s : AdaptiveRenderer)
    (hs : s.pendingDefer = [] ∨ ∃ h, s.pendingDefer = [h] ∧ s.deferredRender = some h) :
    s.cancelDeferTimer.pendingDefer = [] ∧ s.cancelDeferTimer.deferredRender = none := by
  rcases hs with hp | ⟨h, hp, hd⟩
  · unfold AdaptiveRenderer.cancelDeferTimer
    cases hdr : s.deferredRender <;> simp [hp, hdr]
  · unfold AdaptiveRenderer.cancelDeferTimer
    simp [hd, hp]

lemma flushQueueNow_pendingIdle (s0 : AdaptiveRenderer) (env : List ExecBehavior) :
    ((s0.flushQueueNow env).1).pendingIdle = s0.pendingIdle := by
  unfold AdaptiveRenderer.flushQueueNow
  split
  · rfl
  · dsimp only
    split
    · exact runQueue_pendingIdle _ _ _
    · exact runQueue_pendingIdle _ _ _

lemma flushQueueNow_pendingDefer (s0 : AdaptiveRenderer) (env : List ExecBehavior) :
    ((s0.flushQueueNow env).1).pendingDefer = s0.pendingDefer := by
  unfold AdaptiveRenderer.flushQueueNow
  split
  · rfl
  · dsimp only
    split
    · exact runQueue_pendingDefer _ _ _
    · exact runQueue_pendingDefer _ _ _

lemma flushQueueNow_typingTimeout (s0 : AdaptiveRenderer) (env : List ExecBehavior) :
    ((s0.flushQueueNow env).1).typingTimeout = s0.typingTimeout := by
  unfold AdaptiveRenderer.flushQueueNow
  split
  · rfl
  · dsimp only
    split
    · exact runQueue_typingTimeout _ _ _
    · exact runQueue_typingTimeout _ _ _

lemma flushQueueNow_deferredRender (s0 : AdaptiveRenderer) (env : List ExecBehavior) :
    ((s0.flushQueueNow env).1).deferredRender = s0.deferredRender := by
  unfold AdaptiveRenderer.flushQueueNow
  split
  · rfl
  · dsimp only
    split
    · exact runQueue_deferredRender _ _ _
    · exact runQueue_deferredRender _ _ _

lemma flushQueueNow_imm_total (s0 : AdaptiveRenderer) (env : List ExecBehavior)
    (hs : s0.metrics.immediateRenders = s0.metrics.totalRenders) :
    ((s0.flushQueueNow env).1).metrics.immediateRenders =
      ((s0.flushQueueNow env).1).metrics.totalRenders := by
  unfold AdaptiveRenderer.flushQueueNow
  split
  · exact hs
  · dsimp only
    split
    · exact runQueue_imm_total _ _ _ hs
    · exact runQueue_imm_total _ _ _ hs

lemma flushDeferred_clears_defer (s : AdaptiveRenderer) (env : List ExecBehavior)
    (hs : s.pendingDefer = [] ∨ ∃ h, s.pendingDefer = [h] ∧ s.deferredRender = some h) :
    ((s.flushDeferred env).1).pendingDefer = [] ∧
    ((s.flushDeferred env).1).deferredRender = none := by
  have hc := cancelDeferTimer_clears s hs
  unfold AdaptiveRenderer.flushDeferred
  rw [flushQueueNow_pendingDefer, flushQueueNow_deferredRender]
  exact hc

lemma flushDeferred_pendingIdle (s : AdaptiveRenderer) (env : List ExecBehavior) :
    ((s.flushDeferred env).1).pendingIdle = s.pendingIdle := by
  unfold AdaptiveRenderer.flushDeferred
  rw [flushQueueNow_pendingIdle, cancelDeferTimer_pendingIdle]

lemma flushDeferred_typingTimeout (s : AdaptiveRenderer) (env : List ExecBehavior) :
    ((s.flushDeferred env).1).typingTimeout = s.typingTimeout := by
  unfold AdaptiveRenderer.flushDeferred
  rw [flushQueueNow_typingTimeout, cancelDeferTimer_typingTimeout]

lemma flushDeferred_imm_total (s : AdaptiveRenderer) (env : List ExecBehavior)
    (hs : s.metrics.immediateRenders = s.metrics.totalRenders) :
    ((s.flushDeferred env).1).metrics.immediateRenders =
      ((s.flushDeferred env).1).metrics.totalRenders := by
  unfold AdaptiveRenderer.flushDeferred
  refine flushQueueNow_imm_total _ _ ?_
  rw [cancelDeferTimer_metrics]
  exact hs

lemma onInput_pendingIdle_of_inv {s : AdaptiveRenderer} (invI : RenIdleInv s) (now : ℤ) :
    (s.onInput now).pendingIdle = [s.nextTimerId] := by
  rcases invI with h1 | ⟨h, hp, ht⟩
  · unfold AdaptiveRenderer.onInput
    cases hto : s.typingTimeout <;> simp [hto, h1]
  · unfold AdaptiveRenderer.onInput
    simp [ht, hp]

lemma onInput_inv {s : AdaptiveRenderer} (inv : RenTimerInv s) (now : ℤ) :
    RenTimerInv (s.onInput now) := by
  refine ⟨Or.inr ⟨s.nextTimerId, onInput_pendingIdle_of_inv inv.1 now, rfl⟩, ?_⟩
  have hpd : (s.onInput now).pendingDefer = s.pendingDefer := by
    unfold AdaptiveRenderer.onInput
    cases s.typingTimeout <;> rfl
  have hdr : (s.onInput now).deferredRender = s.deferredRender := by
    unfold AdaptiveRenderer.onInput
    cases s.typingTimeout <;> rfl
  unfold RenDeferInv
  rw [hpd, hdr]
  exact inv.2

lemma deferRender_pendingIdle (s : AdaptiveRenderer) (fn : ℕ) (p : Priority) (now : ℤ) :
    (s.deferRender fn p now).pendingIdle = s.pendingIdle := by
  unfold AdaptiveRenderer.deferRender
  cases s.deferredRender <;> rfl

lemma deferRender_typingTimeout (s : AdaptiveRenderer) (fn : ℕ) (p : Priority) (now : ℤ) :
    (s.deferRender fn p now).typingTimeout = s.typingTimeout := by
  unfold AdaptiveRenderer.deferRender
  cases s.deferredRender <;> rfl

lemma deferRender_arm {s : AdaptiveRenderer} (hd : s.deferredRender = none)
    (fn : ℕ) (p : Priority) (now : ℤ) :
    (s.deferRender fn p now).pendingDefer = s.pendingDefer ++ [s.nextTimerId] ∧
    (s.deferRender fn p now).deferredRender = some s.nextTimerId := by
  unfold AdaptiveRenderer.deferRender
  simp [hd]

lemma deferRender_noarm {s : AdaptiveRenderer} {h : ℕ} (hd : s.deferredRender = some h)
    (fn : ℕ) (p : Priority) (now : ℤ) :
    (s.deferRender fn p now).pendingDefer = s.pendingDefer ∧
    (s.deferRender fn p now).deferredRender = some h := by
  unfold AdaptiveRenderer.deferRender
  simp [hd]

lemma deferRender_inv {s : AdaptiveRenderer} (inv : RenTimerInv s)
    (fn : ℕ) (p : Priority) (now : ℤ) : RenTimerInv (s.deferRender fn p now) := by
  obtain ⟨invI, invD⟩ := inv
  constructor
  · unfold RenIdleInv
    rw [deferRender_pendingIdle, deferRender_typingTimeout]
    exact invI
  · rcases invD with ⟨hp, hd⟩ | ⟨h, hp, hd⟩
    · obtain ⟨h1, h2⟩ := deferRender_arm hd fn p now
      right
      exact ⟨s.nextTimerId, by rw [h1, hp]; rfl, h2⟩
    · obtain ⟨h1, h2⟩ := deferRender_noarm hd fn p now
      right
      exact ⟨h, by rw [h1, hp], h2⟩

lemma requestRender_inv {s : AdaptiveRenderer} (inv : RenTimerInv s)
    (fn : ℕ) (p : Priority) (now : ℤ) (b : ExecBehavior) :
    RenTimerInv (s.requestRender fn p now b).1 := by
  unfold AdaptiveRenderer.requestRender
  split
  · exact inv
  · dsimp only
    split
    · exact deferRender_inv inv fn p now
    · exact inv

lemma flushDeferred_inv {s : AdaptiveRenderer} (inv : RenTimerInv s)
    (env : List ExecBehavior) : RenTimerInv (s.flushDeferred env).1 := by
  obtain ⟨invI, invD⟩ := inv
  constructor
  · unfold RenIdleInv
    rw [flushDeferred_pendingIdle, flushDeferred_typingTimeout]
    exact invI
  · left
    exact flushDeferred_clears_defer s env
      (by rcases invD with ⟨hp, _⟩ | ⟨h, hp, hd⟩
          · exact Or.inl hp
          · exact Or.inr ⟨h, hp, hd⟩)

lemma fireIdle_inv {s : AdaptiveRenderer} (inv : RenTimerInv s) (h : ℕ)
    (hmem : h ∈ s.pendingIdle) (env : List ExecBehavior) :
    RenTimerInv (s.fireIdleTimeout h env).1 := by
  obtain ⟨invI, invD⟩ := inv
  unfold AdaptiveRenderer.fireIdleTimeout
  rcases invI with h1 | ⟨h0, hp, _⟩
  · rw [h1] at hmem
    cases hmem
  · rw [hp] at hmem
    have hh : h = h0 := by
      cases hmem with
      | head => rfl
      | tail _ hm => cases hm
    constructor
    · left
      rw [flushDeferred_pendingIdle]
      simp [hp, hh]
    · left
      exact flushDeferred_clears_defer _ env
        (by rcases invD with ⟨hq, _⟩ | ⟨h2, hq, hd⟩
            · exact Or.inl hq
            · exact Or.inr ⟨h2, hq, hd⟩)

lemma fireDefer_inv {s : AdaptiveRenderer} (inv : RenTimerInv s) (h : ℕ)
    (hmem : h ∈ s.pendingDefer) (env : List ExecBehavior) :
    RenTimerInv (s.fireDeferTimeout h env).1 := by
  obtain ⟨invI, invD⟩ := inv
  unfold AdaptiveRenderer.fireDeferTimeout
  constructor
  · unfold RenIdleInv
    rw [flushDeferred_pendingIdle, flushDeferred_typingTimeout]
    exact invI
  · left
    refine flushDeferred_clears_defer _ env (Or.inl ?_)
    rcases invD with ⟨hq, _⟩ | ⟨h2, hq, hd⟩
    · rw [hq] at hmem
      cases hmem
    · rw [hq] at hmem
      have hh : h = h2 := by
        cases hmem with
        | head => rfl
        | tail _ hm => cases hm
      simp [hq, hh]

/-- One observable step of an AdaptiveRenderer instance: a consumer
call, or one of the two timers firing (which requires the timer to be
live in the runtime table). -/
inductive RenStep : AdaptiveRenderer → AdaptiveRenderer → Prop where
  | onInput : ∀ (s : AdaptiveRenderer) (now : ℤ), RenStep s (s.onInput now)
  | requestRender : ∀ (s : AdaptiveRenderer) (fn : ℕ) (p : Priority) (now : ℤ)
      (b : ExecBehavior), RenStep s (s.requestRender fn p now b).1
  | flushDeferred : ∀ (s : AdaptiveRenderer) (env : List ExecBehavior),
      RenStep s (s.flushDeferred env).1
  | fireIdle : ∀ (s : AdaptiveRenderer) (h : ℕ) (env : List ExecBehavior),
      h ∈ s.pendingIdle → RenStep s (s.fireIdleTimeout h env).1
  | fireDefer : ∀ (s : AdaptiveRenderer) (h : ℕ) (env : List ExecBehavior),
      h ∈ s.pendingDefer → RenStep s (s.fireDeferTimeout h env).1

/-- States an AdaptiveRenderer can reach from construction. -/
def ReachableRen (opts : RenOptions) (r : AdaptiveRenderer) : Prop :=
  Relation.ReflTransGen RenStep (AdaptiveRenderer.init opts) r

lemma renStep_inv {s s2 : AdaptiveRenderer} (inv : RenTimerInv s) (st : RenStep s s2) :
    RenTimerInv s2 := by
  cases st with
  | onInput now => exact onInput_inv inv now
  | requestRender fn p now b => exact requestRender_inv inv fn p now b
  | flushDeferred env => exact flushDeferred_inv inv env
  | fireIdle h env hmem => exact fireIdle_inv inv h hmem env
  | fireDefer h env hmem => exact fireDefer_inv inv h hmem env

lemma renInv_of_reachable {opts : RenOptions} {r : AdaptiveRenderer}
    (h : ReachableRen opts r) : RenTimerInv r := by
  induction h with
  | refl => exact ⟨Or.inl rfl, Or.inl ⟨rfl, rfl⟩⟩
  | tail _ st ih => exact renStep_inv ih st

lemma renStep_imm_total {s s2 : AdaptiveRenderer}
    (hs : s.metrics.immediateRenders = s.metrics.totalRenders) (st : RenStep s s2) :
    s2.metrics.immediateRenders = s2.metrics.totalRenders := by
  have hexec : ∀ b : ExecBehavior,
      (s.executeRender b).1.metrics.immediateRenders =
        (s.executeRender b).1.metrics.totalRenders := by
    intro b
    show s.metrics.immediateRenders + 1 = s.metrics.totalRenders + 1
    omega
  cases st with
  | onInput now =>
      have hm : (s.onInput now).metrics = s.metrics := by
        unfold AdaptiveRenderer.onInput
        cases s.typingTimeout <;> rfl
      rw [hm]
      exact hs
  | requestRender fn p now b =>
      unfold AdaptiveRenderer.requestRender
      split
      · exact hexec b
      · dsimp only
        split
        · have hm : (s.deferRender fn p now).metrics.immediateRenders =
              s.metrics.immediateRenders ∧
              (s.deferRender fn p now).metrics.totalRenders = s.metrics.totalRenders := by
            unfold AdaptiveRenderer.deferRender
            cases s.deferredRender <;> exact ⟨rfl, rfl⟩
          rw [hm.1, hm.2]
          exact hs
        · exact hexec b
  | flushDeferred env => exact flushDeferred_imm_total s env hs
  | fireIdle h env hmem =>
      unfold AdaptiveRenderer.fireIdleTimeout
      exact flushDeferred_imm_total _ env hs
  | fireDefer h env hmem =>
      unfold AdaptiveRenderer.fireDeferTimeout
      exact flushDeferred_imm_total _ env hs

/-- C8: in every reachable state of both components, at most one timer
of each kind is live (the typing-mode-off timer of the buffer, the idle
timer and the max-defer timer of the scheduler); moreover push and
onInput leave exactly the freshly armed timer of their kind, deferRender
arms no new timer when one is already recorded, and flushDeferred
leaves no live max-defer timer. -/
theorem C8_at_most_one_pending_timer (bopts : BufOptions) (t0 : ℤ) (s : InputBuffer)
    (ropts : RenOptions) (r : AdaptiveRenderer)
    (hs : ReachableBuf bopts t0 s) (hr : ReachableRen ropts r) :
    s.pendingTyping.length ≤ 1 ∧
    r.pendingIdle.length ≤ 1 ∧
    r.pendingDefer.length ≤ 1 ∧
    (∀ (data : List Char) (ts now : ℤ),
      (s.push data ts now).pendingTyping = [s.nextTimerId]) ∧
    (∀ now : ℤ, (r.onInput now).pendingIdle = [r.nextTimerId]) ∧
    (∀ (h : ℕ) (fn : ℕ) (p : Priority) (now : ℤ), r.deferredRender = some h →
      (r.deferRender fn p now).pendingDefer = r.pendingDefer) ∧
    (∀ env : List ExecBehavior, ((r.flushDeferred env).1).pendingDefer = [] ∧
      ((r.flushDeferred env).1).deferredRender = none) := by
  have invB := bufInv_of_reachable hs
  have invR := renInv_of_reachable hr
  refine ⟨?_, ?_, ?_, ?_, ?_, ?_, ?_⟩
  · rcases invB with h1 | ⟨h, hp, _⟩
    · simp [h1]
    · simp [hp]
  · rcases invR.1 with h1 | ⟨h, hp, _⟩
    · simp [h1]
    · simp [hp]
  · rcases invR.2 with ⟨hp, _⟩ | ⟨h, hp, _⟩
    · simp [hp]
    · simp [hp]
  · exact fun data ts now => push_pendingTyping_of_inv invB data ts now
  · exact fun now => onInput_pendingIdle_of_inv invR.1 now
  · exact fun h fn p now hd => (deferRender_noarm hd fn p now).1
  · intro env
    exact flushDeferred_clears_defer r env
      (by rcases invR.2 with ⟨hp, _⟩ | ⟨h, hp, hd⟩
          · exact Or.inl hp
          · exact Or.inr ⟨h, hp, hd⟩)

/-- Closed witness for C8_at_most_one_pending_timer at the freshly
constructed components. -/
theorem C8_at_most_one_pending_timer_witness :
    (InputBuffer.init {} 0).pendingTyping.length ≤ 1 ∧
    (AdaptiveRenderer.init {}).pendingIdle.length ≤ 1 ∧
    (AdaptiveRenderer.init {}).pendingDefer.length ≤ 1 := by
  have h := C8_at_most_one_pending_timer {} 0 (InputBuffer.init {} 0) {}
    (AdaptiveRenderer.init {}) Relation.ReflTransGen.refl Relation.ReflTransGen.refl
  exact ⟨h.1, h.2.1, h.2.2.1⟩

/-- C10 (implicit): in every reachable scheduler state the
immediateRenders counter equals totalRenders, because executeRender -
also when invoked from flushDeferred on deferred entries - increments
both counters together; the metric names therefore do not partition
renders into deferred-executed plus immediate. -/
theorem C10_immediate_equals_total (opts : RenOptions) (r : AdaptiveRenderer)
    (hr : ReachableRen opts r) :
    r.metrics.immediateRenders = r.metrics.totalRenders ∧
    (∀ b : ExecBehavior,
      (r.executeRender b).1.metrics.totalRenders = r.metrics.totalRenders + 1 ∧
      (r.executeRender b).1.metrics.immediateRenders = r.metrics.immediateRenders + 1) := by
  refine ⟨?_, fun b => ⟨rfl, rfl⟩⟩
  induction hr with
  | refl => rfl
  | tail _ st ih => exact renStep_imm_total ih st

/-- Closed witness for C10_immediate_equals_total at the freshly
constructed scheduler. -/
theorem C10_immediate_equals_total_witness :
    (AdaptiveRenderer.init {}).metrics.immediateRenders =
      (AdaptiveRenderer.init {}).metrics.totalRenders :=
  (C10_immediate_equals_total {} (AdaptiveRenderer.init {})
    Relation.ReflTransGen.refl).1

/-- C9 as amended: the scenario returns content abc, count 3 and
delay 50, but avgQueueTime 0: avgQueueTime averages queuedAt minus
receivedAt, which is 0 under the default arrival timestamp; it would be
near 50 only if the units had arrived 50ms before being queued. -/
theorem C9_scenario_amended :
    (((InputBuffer.init {} 0).push "abc".toList 0 0).flush 50 50).2.1.chars =
      "abc".toList ∧
    (((InputBuffer.init {} 0).push "abc".toList 0 0).flush 50 50).2.1.count = 3 ∧
    (((InputBuffer.init {} 0).push "abc".toList 0 0).flush 50 50).2.1.delay = 50 ∧
    (((InputBuffer.init {} 0).push "abc".toList 0 0).flush 50 50).2.1.avgQueueTime = 0 := by
  refine ⟨by decide, by decide, by decide, ?_⟩
  simp [InputBuffer.flush, InputBuffer.push, InputBuffer.init]

end InputWorker
